import Mathlib

/-!
Shallow embedding of the heart-rate-device repository's core logic:
beat detection (`core/hrm.py`, `ui/layout_animations.py`, `app/handle_hr.py`),
HRV statistics (`core/hrv.py`), threshold calibration, the MQTT result
callback (`core/wifi_mqtt.py`) and the cloud analysis session
(`cloud/kubios.py`).  Hardware sampling loops are embedded as pure folds
over explicit lists of `(value, timestamp)` samples; Python floats are
modelled as exact rationals, Python `int()` truncation and `round()`
(half-to-even) as explicit functions on `ℚ`.
-/

namespace HRDevice

/-- Python `int()` on a rational: truncation toward zero. -/
def pyInt (q : ℚ) : ℤ := if 0 ≤ q then ⌊q⌋ else -⌊-q⌋

/-- Python `round()` on a rational: round half to even (banker's rounding). -/
def pyRound (q : ℚ) : ℤ :=
  if q - ⌊q⌋ < 1/2 then ⌊q⌋
  else if 1/2 < q - ⌊q⌋ then ⌊q⌋ + 1
  else if ⌊q⌋ % 2 = 0 then ⌊q⌋ else ⌊q⌋ + 1

/-- Embedding of `core/hrm.py read_live_signal`: one sample from `read_sample()`
(`none` models the empty-FIFO `None` return).  The code computes
`beat = value > threshold` on the single current sample. -/
def read_live_signal (threshold : ℤ) (sample : Option ℤ) : ℤ × Bool :=
  match sample with
  | none => (0, false)
  | some value => (value, decide (value > threshold))

/-- State of the `core/hrm.py measure_intervals` sampling loop:
the window of beat timestamps (capped at 20) and the previous sample. -/
structure MeasState where
  window : List ℤ
  last_value : ℤ
deriving DecidableEq, Repr

/-- One iteration of the `measure_intervals` sampling loop on a
`(value, timestamp)` sample. -/
def measureStep (threshold : ℤ) (st : MeasState) (s : ℤ × ℤ) : MeasState :=
  if st.last_value < threshold ∧ s.1 ≥ threshold then
    let w := st.window ++ [s.2]
    { window := if w.length > 20 then w.drop 1 else w, last_value := s.1 }
  else
    { window := st.window, last_value := s.1 }

/-- Embedding of `core/hrm.py measure_intervals` run over an explicit sample stream:
fold the loop with `last_value = 0`, then compute successive timestamp
differences and keep only those in the open range (250, 2000) ms. -/
def measure_intervals (threshold : ℤ) (samples : List (ℤ × ℤ)) : List ℤ :=
  let st := samples.foldl (measureStep threshold) ⟨[], 0⟩
  if st.window.length ≥ 2 then
    (List.zipWith (fun a b => a - b) st.window.tail st.window).filter
      (fun d => decide (250 < d ∧ d < 2000))
  else []

/-- State of the `app/handle_hr.py handle_measure_hr` measurement loop. -/
structure HrState where
  beats : List ℤ
  intervals : List ℤ
deriving DecidableEq, Repr

/-- One iteration of the `handle_measure_hr` loop on a
`(sample, timestamp)` pair: the beat flag comes from `read_live_signal`. -/
def handleHrStep (threshold : ℤ) (st : HrState) (s : Option ℤ × ℤ) : HrState :=
  if (read_live_signal threshold s.1).2 then
    let beats := st.beats ++ [s.2]
    if beats.length > 1 then
      let d := beats.getD (beats.length - 1) 0 - beats.getD (beats.length - 2) 0
      if 250 < d ∧ d < 2000 then
        { beats := beats, intervals := st.intervals ++ [d] }
      else
        { beats := beats, intervals := st.intervals }
    else
      { beats := beats, intervals := st.intervals }
  else st

/-- Embedding of `app/handle_hr.py handle_measure_hr` acquisition over a sample stream. -/
def handle_measure_hr_run (threshold : ℤ) (samples : List (Option ℤ × ℤ)) : HrState :=
  samples.foldl (handleHrStep threshold) ⟨[], []⟩

/-- State of the `ui/layout_animations.py show_countdown_animation_kubios`
collection loop. -/
structure KubiosState where
  beat_times : List ℤ
  intervals : List ℤ
  last_value : ℤ
deriving DecidableEq, Repr

/-- One iteration of the `show_countdown_animation_kubios` loop on a
`(value, timestamp)` sample: rising-edge detection
(`last_value < threshold and value >= threshold`) then interval
acceptance in the open range (250, 2000) ms. -/
def kubiosStep (threshold : ℤ) (st : KubiosState) (s : ℤ × ℤ) : KubiosState :=
  if st.last_value < threshold ∧ s.1 ≥ threshold then
    let bt := st.beat_times ++ [s.2]
    if bt.length > 1 then
      let d := bt.getD (bt.length - 1) 0 - bt.getD (bt.length - 2) 0
      if 250 < d ∧ d < 2000 then
        { beat_times := bt, intervals := st.intervals ++ [d], last_value := s.1 }
      else
        { beat_times := bt, intervals := st.intervals, last_value := s.1 }
    else
      { beat_times := bt, intervals := st.intervals, last_value := s.1 }
  else
    { beat_times := st.beat_times, intervals := st.intervals, last_value := s.1 }

/-- Embedding of `ui/layout_animations.py show_countdown_animation_kubios` collection
run over an explicit sample stream (initial `last_value = 0`). -/
def show_countdown_animation_kubios_run (threshold : ℤ) (samples : List (ℤ × ℤ)) :
    KubiosState :=
  samples.foldl (kubiosStep threshold) ⟨[], [], 0⟩

/-- Embedding of `ui/layout_animations.py process_sample`: exponential smoothing
`int(0.2*raw + 0.8*smoothed)`, rising-edge beat detection on the smoothed
value, and interval acceptance.  Returns
(new smoothed, beat flag, accepted interval, new beat_times). -/
def process_sample (raw smoothed threshold last_value : ℤ) (beat_times : List ℤ)
    (now : ℤ) : ℤ × Bool × Option ℤ × List ℤ :=
  let s := pyInt ((2 * raw + 8 * smoothed : ℤ) / (10 : ℚ))
  if last_value < threshold ∧ s ≥ threshold then
    let bt := beat_times ++ [now]
    let itv : Option ℤ :=
      if bt.length > 1 then
        let d := bt.getD (bt.length - 1) 0 - bt.getD (bt.length - 2) 0
        if 250 < d ∧ d < 2000 then some d else none
      else none
    (s, true, itv, bt)
  else (s, false, none, beat_times)

/-- Embedding of `core/hrm.py calculate_bpm`: 0 for the empty list, otherwise
`round(60000 / mean(intervals))` (Python `round`, half-to-even). -/
def calculate_bpm (intervals : List ℤ) : ℤ :=
  if intervals.isEmpty then 0
  else pyRound (60000 / ((intervals.sum : ℚ) / intervals.length))

/-- Embedding of `core/hrm.py calibrate_threshold` over the list of ADC samples read
during the calibration window: running min (from 65535) and max (from 0),
then `int(min_val + (max_val - min_val) * 0.7)`. -/
def calibrate_threshold (samples : List ℕ) : ℤ :=
  let min_val := samples.foldl (fun a v => min a v) 65535
  let max_val := samples.foldl (fun a v => max a v) 0
  pyInt ((min_val : ℚ) + ((max_val : ℚ) - (min_val : ℚ)) * (7/10))

mutual

/-- JSON values as produced by `ujson.loads` (Python `None` is `null`;
numbers restricted to the integers actually used by this protocol). -/
inductive Json where
  | null
  | bool (b : Bool)
  | num (n : ℤ)
  | str (s : String)
  | arr (elems : JsonList)
  | obj (fields : JsonFields)
deriving DecidableEq

/-- Elements of a JSON array. -/
inductive JsonList where
  | nil
  | cons (head : Json) (tail : JsonList)
deriving DecidableEq

/-- Key/value fields of a JSON object. -/
inductive JsonFields where
  | nil
  | cons (key : String) (val : Json) (tail : JsonFields)
deriving DecidableEq

end

/-- Lookup of a key in a JSON object's field list (Python `dict` access). -/
def objGet : JsonFields → String → Option Json
  | .nil, _ => none
  | .cons k v rest, key => if k = key then some v else objGet rest key

/-- Element membership in a JSON array (Python `in` on a list). -/
def jsonListContains : JsonList → Json → Bool
  | .nil, _ => false
  | .cons x rest, j => decide (x = j) || jsonListContains rest j

/-- Python `key in parsed` on a decoded JSON value: key membership for a
dict, element membership for a list, substring test for a string, and a
`TypeError` (modelled as `none`) for the other types. -/
def pyContains (j : Json) (key : String) : Option Bool :=
  match j with
  | .obj fs => some (objGet fs key).isSome
  | .arr xs => some (jsonListContains xs (Json.str key))
  | .str s => some (decide ((s.splitOn key).length > 1))
  | _ => none

/-- A JSON array of integers, e.g. the interval list of a request. -/
def jsonArrOfInts : List ℤ → JsonList
  | [] => .nil
  | n :: rest => .cons (Json.num n) (jsonArrOfInts rest)

/-- Python `isinstance(v, dict)` on a decoded JSON value. -/
def jsonIsObj : Json → Bool
  | .obj _ => true
  | _ => false

/-- The normalized result dict built by `core/wifi_mqtt.py on_message`
(field values are the raw JSON values from the message; a Python `None`
is `Json.null`). -/
structure KubiosResult where
  mean_hr : Json
  mean_ppi : Json
  rmssd : Json
  sdnn : Json
  sns : Json
  pns : Json
deriving DecidableEq

/-- Embedding of `core/wifi_mqtt.py on_message` as a transformer of the shared slot
`kubios_result`.  The message argument is the decode outcome of the raw
payload: `none` models a `ujson.loads`/decode exception.  Every path of
the Python `try` body is translated; any raised exception lands in the
`except` clause, which executes `kubios_result = None`. -/
def on_message (slot : Option KubiosResult) (msg : Option Json) : Option KubiosResult :=
  match msg with
  | none => none
  | some parsed =>
    match pyContains parsed "data" with
    | none => none
    | some false => slot
    | some true =>
      match parsed with
      | .obj fs =>
        match (objGet fs "data").getD Json.null with
        | .obj dfs =>
          match (objGet dfs "analysis").getD (Json.obj JsonFields.nil) with
          | .obj afs =>
            let normalized : KubiosResult :=
              { mean_hr := (objGet afs "mean_hr_bpm").getD Json.null
                mean_ppi := (objGet afs "mean_rr_ms").getD Json.null
                rmssd := (objGet afs "rmssd_ms").getD Json.null
                sdnn := (objGet afs "sdnn_ms").getD Json.null
                sns := (objGet afs "sns_index").getD (Json.num 0)
                pns := (objGet afs "pns_index").getD (Json.num 0) }
            if normalized.mean_hr = Json.null ∨ normalized.mean_ppi = Json.null ∨
                normalized.rmssd = Json.null ∨ normalized.sdnn = Json.null then
              slot
            else
              some normalized
          | _ => none
        | _ => slot
      | _ => none

/-- Embedding of `core/wifi_mqtt.py wait_for_kubios_result` over an explicit schedule of
poll iterations: each entry is `none` (no pending message this
`check_msg`) or `some msg` (the callback runs on `msg`).  The list length
plays the role of the 10 s timeout.  Returns (final slot, returned value). -/
def waitLoop : Option KubiosResult → List (Option (Option Json)) →
    Option KubiosResult × Option KubiosResult
  | slot, [] => (slot, none)
  | slot, m :: rest =>
    match (match m with | none => slot | some msg => on_message slot msg) with
    | some r => (some r, some r)
    | none => waitLoop none rest

/-- Python `mac.replace(":", "")`: for the single-character pattern this
is exactly the removal of every colon character. -/
def stripColons (s : String) : String := ⟨s.data.filter (fun c => decide (c ≠ ':'))⟩

/-- Embedding of `cloud/kubios_utils.py format_kubios_payload`: the wrapped analysis
request built around the interval list, with the colon-stripped MAC. -/
def format_kubios_payload (mac : String) (ppi_list : List ℤ) : Json :=
  Json.obj
    (.cons "type" (Json.str "RRI")
      (.cons "mac" (Json.str (stripColons mac))
        (.cons "data" (Json.arr (jsonArrOfInts ppi_list))
          (.cons "analysis" (Json.obj (.cons "type" (Json.str "readiness") .nil))
            .nil))))

/-- Observable side effects of one pass of `cloud/kubios.py kubios_analysis`.
`publish` carries the topic and the JSON payload handed to
`client.publish` (built inside `core/wifi_mqtt.py publish_json` by
`format_kubios_payload` + `ujson.dumps`). -/
inductive Effect where
  | showStartInstruction
  | collectData
  | showError
  | showSending
  | wifiConnect
  | mqttConnect
  | publish (topic : String) (payload : Json)
  | waitResult
  | handleResponse (r : KubiosResult)
  | showMenu
deriving DecidableEq

/-- User answer to the error screen. -/
inductive Choice where
  | retry
  | exitChoice
deriving DecidableEq

/-- Terminal outcome of one `kubios_analysis` pass (the recursive retry
call is modelled as the `retry` outcome). -/
inductive Outcome where
  | insufficientData
  | success
  | retry
  | exitToMenu
deriving DecidableEq

/-- One pass of `cloud/kubios.py kubios_analysis` as a function of its
oracle inputs: the collected intervals, Wi-Fi and broker outcomes, the
initial shared slot, the message schedule for the result wait, and the
user's error-screen choice.  Returns the emitted effects, the final value
of the shared slot `kubios_result`, and the outcome. -/
def kubios_analysis_run (mac : String) (intervals : List ℤ) (wifiOk mqttOk : Bool)
    (slot : Option KubiosResult) (msgs : List (Option (Option Json)))
    (choice : Choice) : List Effect × Option KubiosResult × Outcome :=
  let pre := [Effect.showStartInstruction, Effect.collectData]
  if intervals.length < 5 then
    (pre ++ [Effect.showError], slot, Outcome.insufficientData)
  else
    let withWifi := pre ++ [Effect.showSending, Effect.wifiConnect]
    if !wifiOk then
      (withWifi ++ [Effect.showError] ++
          (if choice = Choice.exitChoice then [Effect.showMenu] else []),
        slot,
        if choice = Choice.retry then Outcome.retry else Outcome.exitToMenu)
    else if !mqttOk then
      (withWifi ++ [Effect.mqttConnect, Effect.showError] ++
          (if choice = Choice.exitChoice then [Effect.showMenu] else []),
        slot,
        if choice = Choice.retry then Outcome.retry else Outcome.exitToMenu)
    else
      let sent := withWifi ++
        [Effect.mqttConnect,
         Effect.publish "kubios/request" (format_kubios_payload mac intervals),
         Effect.waitResult]
      match waitLoop slot msgs with
      | (slot2, some r) => (sent ++ [Effect.handleResponse r], slot2, Outcome.success)
      | (slot2, none) =>
        (sent ++ [Effect.showError] ++
            (if choice = Choice.exitChoice then [Effect.showMenu] else []),
          slot2,
          if choice = Choice.retry then Outcome.retry else Outcome.exitToMenu)

/-- Embedding of `core/hrv.py calculate_hrv` over exact reals (the Python floats are
modelled as reals, `x ** 0.5` as `Real.sqrt`): returns
`(mean_hr, mean_ppi, rmssd, sdnn)`, or `(0, 0, 0, 0)` when fewer than two
intervals are supplied.  The RMSSD sum runs over `range(1, len(intervals))`
exactly as in the source. -/
noncomputable def calculate_hrv (intervals : List ℝ) : ℝ × ℝ × ℝ × ℝ :=
  if intervals.length < 2 then (0, 0, 0, 0)
  else
    let n : ℝ := intervals.length
    let mean_ppi := intervals.sum / n
    let mean_hr := 60000 / mean_ppi
    let rmssd := Real.sqrt
      ((((List.range' 1 (intervals.length - 1)).map
          (fun i => (intervals.getD i 0 - intervals.getD (i - 1) 0) ^ 2)).sum) / (n - 1))
    let sdnn := Real.sqrt
      (((intervals.map (fun x => (x - mean_ppi) ^ 2)).sum) / (n - 1))
    (mean_hr, mean_ppi, rmssd, sdnn)

/-- Squared successive differences of a list, in order: the summands of
the RMSSD numerator written without index arithmetic. -/
def succDiffsSq : List ℝ → List ℝ
  | a :: b :: t => (b - a) ^ 2 :: succDiffsSq (b :: t)
  | _ => []

section Lemmas

theorem handleHrStep_bound (threshold : ℤ) (st : HrState) (s : Option ℤ × ℤ)
    (h : ∀ d ∈ st.intervals, 250 < d ∧ d < 2000) :
    ∀ d ∈ (handleHrStep threshold st s).intervals, 250 < d ∧ d < 2000 := by
  intro d hd
  simp only [handleHrStep] at hd
  split at hd
  · split at hd
    · split at hd
      · rename_i h3
        simp only [List.mem_append, List.mem_singleton] at hd
        rcases hd with hd | rfl
        · exact h d hd
        · exact h3
      · exact h d hd
    · exact h d hd
  · exact h d hd

theorem foldl_handleHr_bound (threshold : ℤ) :
    ∀ (l : List (Option ℤ × ℤ)) (st : HrState),
      (∀ d ∈ st.intervals, 250 < d ∧ d < 2000) →
      ∀ d ∈ (l.foldl (handleHrStep threshold) st).intervals, 250 < d ∧ d < 2000 := by
  intro l
  induction l with
  | nil => intro st h; simpa using h
  | cons s rest ih =>
    intro st h
    rw [List.foldl_cons]
    exact ih _ (handleHrStep_bound threshold st s h)

theorem kubiosStep_bound (threshold : ℤ) (st : KubiosState) (s : ℤ × ℤ)
    (h : ∀ d ∈ st.intervals, 250 < d ∧ d < 2000) :
    ∀ d ∈ (kubiosStep threshold st s).intervals, 250 < d ∧ d < 2000 := by
  intro d hd
  simp only [kubiosStep] at hd
  split at hd
  · split at hd
    · split at hd
      · rename_i h3
        simp only [List.mem_append, List.mem_singleton] at hd
        rcases hd with hd | rfl
        · exact h d hd
        · exact h3
      · exact h d hd
    · exact h d hd
  · exact h d hd

theorem foldl_kubios_bound (threshold : ℤ) :
    ∀ (l : List (ℤ × ℤ)) (st : KubiosState),
      (∀ d ∈ st.intervals, 250 < d ∧ d < 2000) →
      ∀ d ∈ (l.foldl (kubiosStep threshold) st).intervals, 250 < d ∧ d < 2000 := by
  intro l
  induction l with
  | nil => intro st h; simpa using h
  | cons s rest ih =>
    intro st h
    rw [List.foldl_cons]
    exact ih _ (kubiosStep_bound threshold st s h)

theorem pyRound_nonneg (q : ℚ) (hq : 0 ≤ q) : 0 ≤ pyRound q := by
  have h0 : (0 : ℤ) ≤ ⌊q⌋ := Int.floor_nonneg.mpr hq
  unfold pyRound
  split_ifs <;> omega

end Lemmas

/-- C7: in every acquisition path — `measure_intervals`, the
`handle_measure_hr` loop, the `show_countdown_animation_kubios` loop and
`process_sample` — every interval entering the accepted sequence lies in
the strict open range 250 < d < 2000 ms; out-of-range gaps are dropped. -/
theorem claim_C7 :
    (∀ (threshold : ℤ) (samples : List (ℤ × ℤ)) (d : ℤ),
        d ∈ measure_intervals threshold samples → 250 < d ∧ d < 2000)
  ∧ (∀ (threshold : ℤ) (samples : List (Option ℤ × ℤ)) (d : ℤ),
        d ∈ (handle_measure_hr_run threshold samples).intervals → 250 < d ∧ d < 2000)
  ∧ (∀ (threshold : ℤ) (samples : List (ℤ × ℤ)) (d : ℤ),
        d ∈ (show_countdown_animation_kubios_run threshold samples).intervals →
        250 < d ∧ d < 2000)
  ∧ (∀ (raw smoothed threshold last_value now d : ℤ) (beat_times : List ℤ),
        (process_sample raw smoothed threshold last_value beat_times now).2.2.1 = some d →
        250 < d ∧ d < 2000) := by
  refine ⟨?_, ?_, ?_, ?_⟩
  · intro threshold samples d hd
    simp only [measure_intervals] at hd
    split at hd
    · have := List.of_mem_filter hd
      exact of_decide_eq_true this
    · simp at hd
  · intro threshold samples d hd
    exact foldl_handleHr_bound threshold samples ⟨[], []⟩ (by simp) d hd
  · intro threshold samples d hd
    exact foldl_kubios_bound threshold samples ⟨[], [], 0⟩ (by simp) d hd
  · intro raw smoothed threshold last_value now d beat_times hd
    simp only [process_sample] at hd
    split at hd
    · simp only at hd
      split at hd
      · split at hd
        · rename_i h3
          simp only [Option.some.injEq] at hd
          subst hd
          exact h3
        · simp at hd
      · simp at hd
    · simp at hd

/-- C7 witness: the sample stream 90, 20, 90 at 600 ms spacing produces the
accepted interval 1200, which the theorem places in (250, 2000). -/
theorem claim_C7_witness :
    (1200 : ℤ) ∈ measure_intervals 50 [(90, 0), (20, 600), (90, 1200)] ∧
    (250 : ℤ) < 1200 ∧ (1200 : ℤ) < 2000 :=
  ⟨by decide, claim_C7.1 50 [(90, 0), (20, 600), (90, 1200)] 1200 (by decide)⟩

/-- C3 counterexample: fed 90, 20, 90, 20, 90 against threshold 50 with
600 ms sample spacing, the detector accepts the intervals [1200, 1200]
(beats fire at samples 0, 2, 4, two samples = 1200 ms apart), not two
intervals of 600 ms as claimed. -/
theorem claim_C3_counterexample :
    measure_intervals 50 [(90, 0), (20, 600), (90, 1200), (20, 1800), (90, 2400)] =
      [1200, 1200] ∧
    ([1200, 1200] : List ℤ) ≠ [600, 600] := by decide

/-- C3 (amended): the 600 ms-spaced stream yields exactly 2 accepted
intervals of 1200 ms each, in both the `measure_intervals` path and the
`show_countdown_animation_kubios` path; the 100 ms-spaced stream yields 0
accepted intervals in both paths (gaps of 200 ms rejected as too fast). -/
theorem claim_C3 :
    measure_intervals 50 [(90, 0), (20, 600), (90, 1200), (20, 1800), (90, 2400)] =
      [1200, 1200]
  ∧ (show_countdown_animation_kubios_run 50
      [(90, 0), (20, 600), (90, 1200), (20, 1800), (90, 2400)]).intervals = [1200, 1200]
  ∧ measure_intervals 50 [(90, 0), (20, 100), (90, 200), (20, 300), (90, 400)] = []
  ∧ (show_countdown_animation_kubios_run 50
      [(90, 0), (20, 100), (90, 200), (20, 300), (90, 400)]).intervals = [] := by decide

/-- C2: the rising-edge rule. The first three conjuncts show the
`measure_intervals`, `show_countdown_animation_kubios` and `process_sample`
paths fire exactly on `last_value < threshold ∧ value ≥ threshold` (so a
previous value at or above threshold never re-triggers).  The last three
conjuncts exhibit the divergence of the live path: `read_live_signal`
computes `beat = value > threshold` on the lone current sample, so two
consecutive samples of 90 against threshold 50 record two beats in the
`handle_measure_hr` loop, and a sample equal to the threshold reports no
beat even after a below-threshold sample. -/
theorem claim_C2 :
    (∀ (threshold : ℤ) (st : KubiosState) (s : ℤ × ℤ),
        (kubiosStep threshold st s).beat_times =
          if st.last_value < threshold ∧ s.1 ≥ threshold then st.beat_times ++ [s.2]
          else st.beat_times)
  ∧ (∀ (threshold : ℤ) (st : MeasState) (s : ℤ × ℤ),
        ¬(st.last_value < threshold ∧ s.1 ≥ threshold) →
        (measureStep threshold st s).window = st.window)
  ∧ (∀ (raw smoothed threshold last_value now : ℤ) (beat_times : List ℤ),
        (process_sample raw smoothed threshold last_value beat_times now).2.1 = true ↔
          last_value < threshold ∧ pyInt ((2 * raw + 8 * smoothed : ℤ) / (10 : ℚ)) ≥ threshold)
  ∧ read_live_signal 50 (some 90) = (90, true)
  ∧ (handle_measure_hr_run 50 [(some 90, 0), (some 90, 600)]).beats = [0, 600]
  ∧ read_live_signal 50 (some 50) = (50, false) := by
  refine ⟨?_, ?_, ?_, by decide, by decide, by decide⟩
  · intro threshold st s
    simp only [kubiosStep]
    split
    · split
      · split <;> rfl
      · rfl
    · rfl
  · intro threshold st s hc
    simp only [measureStep, if_neg hc]
  · intro raw smoothed threshold last_value now beat_times
    simp only [process_sample]
    split
    · rename_i hc
      simpa using hc
    · rename_i hc
      simpa using hc

/-- C2 witness: with the previous kubios-path sample already at 90 (at or
above threshold 50), a new sample of 90 does not re-trigger a beat. -/
theorem claim_C2_witness :
    (kubiosStep 50 ⟨[0], [], 90⟩ (90, 600)).beat_times =
      (if (90 : ℤ) < 50 ∧ (90 : ℤ) ≥ 50 then [0, 600] else [0]) ∧
    (¬((90 : ℤ) < 50 ∧ (90 : ℤ) ≥ 50) ∧ (measureStep 50 ⟨[0], 90⟩ (90, 600)).window = [0]) :=
  ⟨claim_C2.1 50 ⟨[0], [], 90⟩ (90, 600),
   by decide, claim_C2.2.1 50 ⟨[0], 90⟩ (90, 600) (by decide)⟩

/-- C8: `calculate_bpm` returns 0 on the empty list; on a non-empty list of
(positive) intervals it returns `round(60000 / mean(intervals))`, which is
non-negative; and the two concrete values from the spec hold. -/
theorem claim_C8 :
    calculate_bpm [] = 0
  ∧ (∀ l : List ℤ, l ≠ [] → (∀ x ∈ l, 0 < x) →
      calculate_bpm l = pyRound (60000 / ((l.sum : ℚ) / (l.length : ℚ))) ∧
        0 ≤ calculate_bpm l)
  ∧ calculate_bpm [1000] = 60
  ∧ calculate_bpm [500, 500, 500] = 120 := by
  refine ⟨by decide, ?_, by norm_num [calculate_bpm, pyRound],
    by norm_num [calculate_bpm, pyRound]⟩
  intro l hne hpos
  have hemp : l.isEmpty = false := by
    cases l with
    | nil => exact absurd rfl hne
    | cons a t => rfl
  have hsum : 0 < l.sum := List.sum_pos l hpos hne
  have hlen : 0 < l.length := List.length_pos.mpr hne
  have havg : 0 < ((l.sum : ℚ) / (l.length : ℚ)) := by
    apply div_pos
    · exact_mod_cast hsum
    · exact_mod_cast hlen
  have hq : 0 ≤ (60000 : ℚ) / ((l.sum : ℚ) / (l.length : ℚ)) :=
    le_of_lt (div_pos (by norm_num) havg)
  constructor
  · simp [calculate_bpm, hemp]
  · have : calculate_bpm l = pyRound (60000 / ((l.sum : ℚ) / (l.length : ℚ))) := by
      simp [calculate_bpm, hemp]
    rw [this]
    exact pyRound_nonneg _ hq

/-- C8 witness: instantiation at the one-element list `[1000]`. -/
theorem claim_C8_witness :
    ([1000] : List ℤ) ≠ [] ∧
    calculate_bpm [1000] = pyRound (60000 / ((([1000] : List ℤ).sum : ℚ) / 1)) ∧
    0 ≤ calculate_bpm [1000] := by
  have h := claim_C8.2.1 [1000] (by decide) (by decide)
  exact ⟨by decide, by simpa using h.1, h.2⟩

theorem foldl_min_le_init : ∀ (l : List ℕ) (a : ℕ), l.foldl (fun x v => min x v) a ≤ a := by
  intro l
  induction l with
  | nil => intro a; exact le_refl a
  | cons b t ih =>
    intro a
    exact le_trans (ih (min a b)) (min_le_left a b)

theorem foldl_min_le_mem : ∀ (l : List ℕ) (a x : ℕ),
    x ∈ l → l.foldl (fun x v => min x v) a ≤ x := by
  intro l
  induction l with
  | nil => intro a x hx; simp at hx
  | cons b t ih =>
    intro a x hx
    rcases List.mem_cons.mp hx with rfl | hx
    · exact le_trans (foldl_min_le_init t (min a x)) (min_le_right a x)
    · exact ih (min a b) x hx

theorem le_foldl_max_init : ∀ (l : List ℕ) (a : ℕ), a ≤ l.foldl (fun x v => max x v) a := by
  intro l
  induction l with
  | nil => intro a; exact le_refl a
  | cons b t ih =>
    intro a
    exact le_trans (le_max_left a b) (ih (max a b))

theorem le_foldl_max_mem : ∀ (l : List ℕ) (a x : ℕ),
    x ∈ l → x ≤ l.foldl (fun x v => max x v) a := by
  intro l
  induction l with
  | nil => intro a x hx; simp at hx
  | cons b t ih =>
    intro a x hx
    rcases List.mem_cons.mp hx with rfl | hx
    · exact le_trans (le_max_right a x) (le_foldl_max_init t (max a x))
    · exact ih (max a b) x hx

theorem foldl_min_const100 : ∀ m : ℕ,
    (List.replicate m (100 : ℕ)).foldl (fun x v => min x v) 100 = 100 := by
  intro m
  induction m with
  | zero => rfl
  | succ n ih => rw [List.replicate_succ, List.foldl_cons, min_self]; exact ih

theorem foldl_max_const100 : ∀ m : ℕ,
    (List.replicate m (100 : ℕ)).foldl (fun x v => max x v) 100 = 100 := by
  intro m
  induction m with
  | zero => rfl
  | succ n ih => rw [List.replicate_succ, List.foldl_cons, max_self]; exact ih

/-- C6: for every non-empty calibration window, the returned threshold is
the truncation (equivalently, since the value is non-negative, the floor)
of `min + 0.7 * (max - min)` over the observed running min/max, it lies
between them, the running min/max bound every observed sample, and a
constant window of value 100 (of any positive length) yields exactly 100. -/
theorem claim_C6 :
    (∀ samples : List ℕ, samples ≠ [] →
      (calibrate_threshold samples =
          ⌊(((samples.foldl (fun x v => min x v) 65535 : ℕ) : ℚ) +
            (((samples.foldl (fun x v => max x v) 0 : ℕ) : ℚ) -
              ((samples.foldl (fun x v => min x v) 65535 : ℕ) : ℚ)) * (7 / 10))⌋)
      ∧ (((samples.foldl (fun x v => min x v) 65535 : ℕ) : ℤ) ≤ calibrate_threshold samples ∧
          calibrate_threshold samples ≤ ((samples.foldl (fun x v => max x v) 0 : ℕ) : ℤ))
      ∧ (∀ s ∈ samples, samples.foldl (fun x v => min x v) 65535 ≤ s ∧
          s ≤ samples.foldl (fun x v => max x v) 0))
  ∧ (∀ n : ℕ, calibrate_threshold (List.replicate (n + 1) 100) = 100) := by
  constructor
  · intro samples hne
    obtain ⟨s0, t, rfl⟩ := List.exists_cons_of_ne_nil hne
    set mn := (s0 :: t).foldl (fun x v => min x v) 65535 with hmn
    set mx := (s0 :: t).foldl (fun x v => max x v) 0 with hmx
    have hmem : s0 ∈ s0 :: t := List.mem_cons_self s0 t
    have h1 : mn ≤ s0 := foldl_min_le_mem _ _ _ hmem
    have h2 : s0 ≤ mx := le_foldl_max_mem _ _ _ hmem
    have hmm : mn ≤ mx := le_trans h1 h2
    have hmmq : (mn : ℚ) ≤ (mx : ℚ) := by exact_mod_cast hmm
    have hterm : 0 ≤ ((mx : ℚ) - (mn : ℚ)) * (7 / 10) :=
      mul_nonneg (by linarith) (by norm_num)
    have hq0 : 0 ≤ (mn : ℚ) + ((mx : ℚ) - (mn : ℚ)) * (7 / 10) := by
      have := mn.cast_nonneg (α := ℚ)
      linarith
    have hcal : calibrate_threshold (s0 :: t) =
        ⌊((mn : ℚ) + ((mx : ℚ) - (mn : ℚ)) * (7 / 10))⌋ := by
      simp only [calibrate_threshold, pyInt, ← hmn, ← hmx, if_pos hq0]
    refine ⟨hcal, ⟨?_, ?_⟩, ?_⟩
    · rw [hcal]
      apply Int.le_floor.mpr
      push_cast
      linarith
    · rw [hcal]
      have hle : (mn : ℚ) + ((mx : ℚ) - (mn : ℚ)) * (7 / 10) ≤ (mx : ℚ) := by linarith
      calc ⌊((mn : ℚ) + ((mx : ℚ) - (mn : ℚ)) * (7 / 10))⌋
          ≤ ⌊(mx : ℚ)⌋ := Int.floor_le_floor hle
        _ = (mx : ℤ) := Int.floor_natCast mx
    · intro s hs
      exact ⟨foldl_min_le_mem _ _ _ hs, le_foldl_max_mem _ _ _ hs⟩
  · intro n
    have hmin : (List.replicate (n + 1) (100 : ℕ)).foldl (fun x v => min x v) 65535 = 100 := by
      rw [List.replicate_succ, List.foldl_cons]
      have : min 65535 (100 : ℕ) = 100 := by norm_num
      rw [this]
      exact foldl_min_const100 n
    have hmax : (List.replicate (n + 1) (100 : ℕ)).foldl (fun x v => max x v) 0 = 100 := by
      rw [List.replicate_succ, List.foldl_cons]
      have : max 0 (100 : ℕ) = 100 := by norm_num
      rw [this]
      exact foldl_max_const100 n
    simp only [calibrate_threshold, hmin, hmax, pyInt]
    norm_num

/-- C6 witness: the window [100, 200] is non-empty, and the computed
threshold 170 lies between its min 100 and max 200. -/
theorem claim_C6_witness :
    ([100, 200] : List ℕ) ≠ [] ∧
    (((([100, 200] : List ℕ).foldl (fun x v => min x v) 65535 : ℕ) : ℤ) ≤
        calibrate_threshold [100, 200] ∧
      calibrate_threshold [100, 200] ≤
        ((([100, 200] : List ℕ).foldl (fun x v => max x v) 0 : ℕ) : ℤ)) :=
  ⟨by decide, (claim_C6.1 [100, 200] (by decide)).2.1⟩

/-- C9: when fewer than 5 intervals were collected, the session shows the
error screen and returns at once: the emitted effect trace is exactly
instruction, collection, error — it contains no Wi-Fi connection, no
broker session and no publish, and the shared slot is untouched. -/
theorem claim_C9 :
    ∀ (mac : String) (intervals : List ℤ) (wifiOk mqttOk : Bool)
      (slot : Option KubiosResult) (msgs : List (Option (Option Json))) (choice : Choice),
      intervals.length < 5 →
      kubios_analysis_run mac intervals wifiOk mqttOk slot msgs choice =
        ([Effect.showStartInstruction, Effect.collectData, Effect.showError], slot,
          Outcome.insufficientData)
      ∧ (∀ e ∈ (kubios_analysis_run mac intervals wifiOk mqttOk slot msgs choice).1,
          e ≠ Effect.wifiConnect ∧ e ≠ Effect.mqttConnect ∧
          ∀ (t : String) (p : Json), e ≠ Effect.publish t p) := by
  intro mac intervals wifiOk mqttOk slot msgs choice h
  have hrun : kubios_analysis_run mac intervals wifiOk mqttOk slot msgs choice =
      ([Effect.showStartInstruction, Effect.collectData, Effect.showError], slot,
        Outcome.insufficientData) := by
    simp only [kubios_analysis_run, if_pos h]
    rfl
  refine ⟨hrun, ?_⟩
  rw [hrun]
  intro e he
  simp only [List.mem_cons, List.not_mem_nil, or_false] at he
  rcases he with rfl | rfl | rfl
  · exact ⟨by simp, by simp, fun t p h => Effect.noConfusion h⟩
  · exact ⟨by simp, by simp, fun t p h => Effect.noConfusion h⟩
  · exact ⟨by simp, by simp, fun t p h => Effect.noConfusion h⟩

/-- C9 witness: a 4-interval collection (below the 5-interval floor)
produces exactly the error trace with no network effect. -/
theorem claim_C9_witness :
    (([800, 800, 800, 800] : List ℤ).length < 5) ∧
    kubios_analysis_run "AA:BB:CC:DD:EE:FF" [800, 800, 800, 800] true true none []
        Choice.retry =
      ([Effect.showStartInstruction, Effect.collectData, Effect.showError], none,
        Outcome.insufficientData) :=
  ⟨by decide,
   (claim_C9 "AA:BB:CC:DD:EE:FF" [800, 800, 800, 800] true true none [] Choice.retry
     (by decide)).1⟩

/-- C4 counterexample: on a successful 5-interval session, the effect trace
contains no publish whose payload is the bare JSON array of the intervals;
the payload actually handed to `client.publish` is the wrapped request
object (built inside `publish_json` by `format_kubios_payload`). -/
theorem claim_C4_counterexample :
    Effect.publish "kubios/request" (Json.arr (jsonArrOfInts [800, 810, 790, 805, 795])) ∉
      (kubios_analysis_run "AA:BB:CC:DD:EE:FF" [800, 810, 790, 805, 795] true true none []
        Choice.exitChoice).1
  ∧ (kubios_analysis_run "AA:BB:CC:DD:EE:FF" [800, 810, 790, 805, 795] true true none []
        Choice.exitChoice).1 =
      [Effect.showStartInstruction, Effect.collectData, Effect.showSending,
       Effect.wifiConnect, Effect.mqttConnect,
       Effect.publish "kubios/request"
         (Json.obj (.cons "type" (Json.str "RRI")
           (.cons "mac" (Json.str "AABBCCDDEEFF")
             (.cons "data" (Json.arr (jsonArrOfInts [800, 810, 790, 805, 795]))
               (.cons "analysis" (Json.obj (.cons "type" (Json.str "readiness") .nil))
                 .nil))))),
       Effect.waitResult, Effect.showError, Effect.showMenu] := by decide

/-- C4 (amended): `kubios_analysis` passes the raw interval list to
`publish_json` (discarding the request it built itself), but `publish_json`
re-wraps the list with `format_kubios_payload`, so the payload actually
published on the request topic is always the wrapped request object and
never a bare JSON array. -/
theorem claim_C4 :
    ∀ (mac : String) (intervals : List ℤ) (slot : Option KubiosResult)
      (msgs : List (Option (Option Json))) (choice : Choice),
      5 ≤ intervals.length →
      (Effect.publish "kubios/request" (format_kubios_payload mac intervals) ∈
        (kubios_analysis_run mac intervals true true slot msgs choice).1)
      ∧ (∀ xs : JsonList, format_kubios_payload mac intervals ≠ Json.arr xs)
      ∧ (∀ (t : String) (xs : JsonList),
          Effect.publish t (Json.arr xs) ∉
            (kubios_analysis_run mac intervals true true slot msgs choice).1) := by
  intro mac intervals slot msgs choice h5
  have hnot : ¬ intervals.length < 5 := not_lt.mpr h5
  refine ⟨?_, ?_, ?_⟩
  · simp only [kubios_analysis_run, if_neg hnot, Bool.not_true]
    rcases hw : waitLoop slot msgs with ⟨slot2, res⟩
    cases res <;> simp
  · intro xs h
    exact Json.noConfusion h
  · intro t xs hmem
    simp only [kubios_analysis_run, if_neg hnot, Bool.not_true] at hmem
    rcases hw : waitLoop slot msgs with ⟨slot2, res⟩
    rw [hw] at hmem
    cases res <;> cases choice <;>
      simp [format_kubios_payload] at hmem

/-- C4 witness: a 5-interval session publishes the wrapped request built
from the raw interval list. -/
theorem claim_C4_witness :
    (5 ≤ ([800, 810, 790, 805, 795] : List ℤ).length) ∧
    Effect.publish "kubios/request"
        (format_kubios_payload "AA:BB:CC:DD:EE:FF" [800, 810, 790, 805, 795]) ∈
      (kubios_analysis_run "AA:BB:CC:DD:EE:FF" [800, 810, 790, 805, 795] true true none []
        Choice.retry).1 :=
  ⟨by decide,
   (claim_C4 "AA:BB:CC:DD:EE:FF" [800, 810, 790, 805, 795] none [] Choice.retry
     (by decide)).1⟩

/-- C5 counterexample: an undecodable inbound message reaches the `except`
clause, which executes `kubios_result = None` — the previously stored
result is erased, not left unchanged as the claim states. -/
theorem claim_C5_counterexample :
    on_message
        (some ⟨Json.num 70, Json.num 800, Json.num 30, Json.num 40, Json.num 1, Json.num 1⟩)
        none = none ∧
    (none : Option KubiosResult) ≠
      some ⟨Json.num 70, Json.num 800, Json.num 30, Json.num 40, Json.num 1, Json.num 1⟩ := by
  decide

/-- C5 (amended): the callback never raises (every parse failure is caught);
a message that fails the structural checks — no `data` key, `data` not a
dict, or any of the four required analysis keys missing/null — leaves the
slot unchanged; but a message whose processing raises (undecodable input,
or e.g. a non-dict `analysis` value) resets the slot to `None`; on an
accepted message the stored result takes `sns`/`pns` from the message with
default 0 when the key is absent. -/
theorem claim_C5 :
    ∀ slot : Option KubiosResult,
      (on_message slot none = none)
    ∧ (∀ parsed : Json, pyContains parsed "data" = some false →
        on_message slot (some parsed) = slot)
    ∧ (∀ (fs : JsonFields) (v : Json), objGet fs "data" = some v → jsonIsObj v = false →
        on_message slot (some (Json.obj fs)) = slot)
    ∧ (∀ fs dfs afs : JsonFields,
        objGet fs "data" = some (Json.obj dfs) →
        (objGet dfs "analysis").getD (Json.obj JsonFields.nil) = Json.obj afs →
        ((objGet afs "mean_hr_bpm").getD Json.null = Json.null ∨
         (objGet afs "mean_rr_ms").getD Json.null = Json.null ∨
         (objGet afs "rmssd_ms").getD Json.null = Json.null ∨
         (objGet afs "sdnn_ms").getD Json.null = Json.null) →
        on_message slot (some (Json.obj fs)) = slot)
    ∧ (∀ fs dfs afs : JsonFields,
        objGet fs "data" = some (Json.obj dfs) →
        (objGet dfs "analysis").getD (Json.obj JsonFields.nil) = Json.obj afs →
        (objGet afs "mean_hr_bpm").getD Json.null ≠ Json.null →
        (objGet afs "mean_rr_ms").getD Json.null ≠ Json.null →
        (objGet afs "rmssd_ms").getD Json.null ≠ Json.null →
        (objGet afs "sdnn_ms").getD Json.null ≠ Json.null →
        on_message slot (some (Json.obj fs)) =
          some { mean_hr := (objGet afs "mean_hr_bpm").getD Json.null
                 mean_ppi := (objGet afs "mean_rr_ms").getD Json.null
                 rmssd := (objGet afs "rmssd_ms").getD Json.null
                 sdnn := (objGet afs "sdnn_ms").getD Json.null
                 sns := (objGet afs "sns_index").getD (Json.num 0)
                 pns := (objGet afs "pns_index").getD (Json.num 0) }) := by
  intro slot
  refine ⟨rfl, ?_, ?_, ?_, ?_⟩
  · intro parsed hp
    simp only [on_message, hp]
  · intro fs v hget hv
    simp only [on_message, pyContains, hget, Option.isSome_some, Option.getD_some]
    cases v with
    | obj dfs => simp [jsonIsObj] at hv
    | null => rfl
    | bool b => rfl
    | num n => rfl
    | str s => rfl
    | arr xs => rfl
  · intro fs dfs afs hget hana hnull
    simp only [on_message, pyContains, hget, Option.isSome_some, Option.getD_some, hana]
    rw [if_pos]
    exact hnull
  · intro fs dfs afs hget hana h1 h2 h3 h4
    simp only [on_message, pyContains, hget, Option.isSome_some, Option.getD_some, hana]
    rw [if_neg]
    simp only [not_or]
    exact ⟨h1, h2, h3, h4⟩

/-- C5 witness: a structurally invalid message (a JSON array, which has no
`data` key) leaves a previously stored result untouched. -/
theorem claim_C5_witness :
    pyContains (Json.arr JsonList.nil) "data" = some false ∧
    on_message
        (some ⟨Json.num 70, Json.num 800, Json.num 30, Json.num 40, Json.num 0, Json.num 0⟩)
        (some (Json.arr JsonList.nil)) =
      some ⟨Json.num 70, Json.num 800, Json.num 30, Json.num 40, Json.num 0, Json.num 0⟩ :=
  ⟨by decide,
   (claim_C5 (some ⟨Json.num 70, Json.num 800, Json.num 30, Json.num 40, Json.num 0,
      Json.num 0⟩)).2.1 (Json.arr JsonList.nil) (by decide)⟩

theorem waitLoop_no_msg_fst :
    ∀ (msgs : List (Option (Option Json))) (slot : Option KubiosResult),
      (∀ m ∈ msgs, m = none) → (waitLoop slot msgs).1 = slot := by
  intro msgs
  induction msgs with
  | nil => intro slot _; rfl
  | cons m rest ih =>
    intro slot h
    have hm : m = none := h m (List.mem_cons_self m rest)
    subst hm
    simp only [waitLoop]
    cases slot with
    | some r => rfl
    | none => exact ih none (fun m hm => h m (List.mem_cons_of_mem _ hm))

/-- C10 counterexample: with a stale result in the slot, a single poll
iteration in which an undecodable message arrives clears the slot via the
callback and the wait does not return the stale result — so the stale
value is not returned "regardless of whether any new message arrives". -/
theorem claim_C10_counterexample :
    waitLoop
        (some ⟨Json.num 60, Json.num 1000, Json.num 20, Json.num 25, Json.num 0, Json.num 0⟩)
        [some none] = (none, none) ∧
    (waitLoop
        (some ⟨Json.num 60, Json.num 1000, Json.num 20, Json.num 25, Json.num 0, Json.num 0⟩)
        [some none]).2 ≠
      some ⟨Json.num 60, Json.num 1000, Json.num 20, Json.num 25, Json.num 0, Json.num 0⟩ := by
  decide

/-- C10 (amended): neither `wait_for_kubios_result` nor the session flow
itself ever clears `kubios_result` — when no message arrives the wait
leaves the slot exactly as found, and a non-empty stale slot is returned
on the first poll iteration (also when the first message is discarded by
the callback); the full session likewise preserves the slot when no
message arrives.  Only the subscription callback can change the slot. -/
theorem claim_C10 :
    (∀ (slot : Option KubiosResult) (msgs : List (Option (Option Json))),
        (∀ m ∈ msgs, m = none) → (waitLoop slot msgs).1 = slot)
  ∧ (∀ (r : KubiosResult) (msgs : List (Option (Option Json))),
        waitLoop (some r) (none :: msgs) = (some r, some r))
  ∧ (∀ (r : KubiosResult) (msg : Option Json) (msgs : List (Option (Option Json))),
        on_message (some r) msg = some r →
        waitLoop (some r) (some msg :: msgs) = (some r, some r))
  ∧ (∀ (mac : String) (intervals : List ℤ) (wifiOk mqttOk : Bool)
        (slot : Option KubiosResult) (msgs : List (Option (Option Json))) (choice : Choice),
        (∀ m ∈ msgs, m = none) →
        (kubios_analysis_run mac intervals wifiOk mqttOk slot msgs choice).2.1 = slot) := by
  refine ⟨fun slot msgs h => waitLoop_no_msg_fst msgs slot h, ?_, ?_, ?_⟩
  · intro r msgs
    rfl
  · intro r msg msgs h
    simp only [waitLoop, h]
  · intro mac intervals wifiOk mqttOk slot msgs choice h
    simp only [kubios_analysis_run]
    split
    · rfl
    · cases wifiOk with
      | false => rfl
      | true =>
        cases mqttOk with
        | false => rfl
        | true =>
          simp only [Bool.not_true]
          have hfst := waitLoop_no_msg_fst msgs slot h
          rcases hw : waitLoop slot msgs with ⟨slot2, res⟩
          rw [hw] at hfst
          cases res with
          | some r => simpa using hfst
          | none => simpa using hfst

/-- C10 witness: a stale stored result survives an empty wait and is
returned on the first poll iteration when no message arrives. -/
theorem claim_C10_witness :
    (waitLoop
        (some ⟨Json.num 75, Json.num 800, Json.num 35, Json.num 45, Json.num 2, Json.num 2⟩)
        []).1 =
      some ⟨Json.num 75, Json.num 800, Json.num 35, Json.num 45, Json.num 2, Json.num 2⟩ ∧
    waitLoop
        (some ⟨Json.num 75, Json.num 800, Json.num 35, Json.num 45, Json.num 2, Json.num 2⟩)
        [none] =
      (some ⟨Json.num 75, Json.num 800, Json.num 35, Json.num 45, Json.num 2, Json.num 2⟩,
       some ⟨Json.num 75, Json.num 800, Json.num 35, Json.num 45, Json.num 2, Json.num 2⟩) :=
  ⟨claim_C10.1 _ [] (by simp),
   claim_C10.2.1 ⟨Json.num 75, Json.num 800, Json.num 35, Json.num 45, Json.num 2, Json.num 2⟩ []⟩

theorem map_range'_shift (f : ℕ → ℝ) : ∀ (n s : ℕ),
    (List.range' (s + 1) n).map f = (List.range' s n).map (fun i => f (i + 1)) := by
  intro n
  induction n with
  | zero => intro s; rfl
  | succ k ih =>
    intro s
    rw [List.range'_succ, List.range'_succ, List.map_cons, List.map_cons, ih (s + 1)]

theorem succDiffsSq_sum_eq : ∀ (m : List ℝ) (a : ℝ),
    ((List.range' 1 m.length).map
      (fun i => ((a :: m).getD i 0 - (a :: m).getD (i - 1) 0) ^ 2)).sum
    = (succDiffsSq (a :: m)).sum := by
  intro m
  induction m with
  | nil => intro a; rfl
  | cons b t ih =>
    intro a
    rw [List.length_cons, List.range'_succ, List.map_cons, List.sum_cons]
    rw [map_range'_shift]
    have h2 : (List.range' 1 t.length).map
        (fun i => ((a :: b :: t).getD (i + 1) 0 - (a :: b :: t).getD (i + 1 - 1) 0) ^ 2) =
        (List.range' 1 t.length).map
        (fun i => ((b :: t).getD i 0 - (b :: t).getD (i - 1) 0) ^ 2) := by
      apply List.map_congr_left
      intro i hi
      have h1i : 1 ≤ i := (List.mem_range'_1.mp hi).1
      obtain ⟨j, rfl⟩ : ∃ j, i = j + 1 := ⟨i - 1, (Nat.succ_pred_eq_of_pos h1i).symm⟩
      simp [List.getD_cons_succ]
    rw [h2, ih b]
    have h3 : succDiffsSq (a :: b :: t) = (b - a) ^ 2 :: succDiffsSq (b :: t) := rfl
    rw [h3, List.sum_cons]
    simp

/-- C1: `calculate_hrv` returns the all-zero sentinel for fewer than 2
intervals; for N ≥ 2 it returns exactly `mean_ppi = Σ/N`,
`mean_hr = 60000/mean_ppi`, `rmssd = sqrt(Σ successive diff² / (N−1))`
and `sdnn = sqrt(Σ (x − mean_ppi)² / (N−1))` — both with the sample N−1
denominator — and on [700, 900] yields mean_hr 75, mean_ppi 800, rmssd 200
and sdnn 100·√2. -/
theorem claim_C1 :
    (∀ l : List ℝ, l.length < 2 → calculate_hrv l = (0, 0, 0, 0))
  ∧ (∀ l : List ℝ, 2 ≤ l.length →
      calculate_hrv l =
        (60000 / (l.sum / (l.length : ℝ)),
         l.sum / (l.length : ℝ),
         Real.sqrt ((succDiffsSq l).sum / ((l.length : ℝ) - 1)),
         Real.sqrt (((l.map (fun x => (x - l.sum / (l.length : ℝ)) ^ 2)).sum) /
           ((l.length : ℝ) - 1))))
  ∧ calculate_hrv [700, 900] = (75, 800, 200, 100 * Real.sqrt 2) := by
  refine ⟨?_, ?_, ?_⟩
  · intro l hl
    simp only [calculate_hrv, if_pos hl]
  · intro l hl
    have hnlt : ¬ l.length < 2 := not_lt.mpr hl
    cases l with
    | nil => simp at hl
    | cons a m =>
      simp only [calculate_hrv, if_neg hnlt]
      have hlen : (a :: m).length - 1 = m.length := by simp
      rw [hlen, succDiffsSq_sum_eq m a]
  · have h1 : Real.sqrt 40000 = 200 := by
      rw [show (40000 : ℝ) = 200 ^ 2 by norm_num]
      exact Real.sqrt_sq (by norm_num)
    have h2 : Real.sqrt 20000 = 100 * Real.sqrt 2 := by
      rw [show (20000 : ℝ) = 100 ^ 2 * 2 by norm_num,
        Real.sqrt_mul (by positivity) 2, Real.sqrt_sq (by norm_num)]
    have hnlt : ¬ ([700, 900] : List ℝ).length < 2 := by norm_num
    simp only [calculate_hrv, if_neg hnlt]
    norm_num [List.range'_succ]
    exact ⟨h1, h2⟩

/-- C1 witness: the two hypothesised conjuncts instantiated at the empty
list (sentinel case) and at [700, 900] (N = 2 case). -/
theorem claim_C1_witness :
    (([] : List ℝ).length < 2 ∧ calculate_hrv ([] : List ℝ) = (0, 0, 0, 0)) ∧
    (2 ≤ ([700, 900] : List ℝ).length ∧
      calculate_hrv [700, 900] =
        (60000 / (([700, 900] : List ℝ).sum / (([700, 900] : List ℝ).length : ℝ)),
         ([700, 900] : List ℝ).sum / (([700, 900] : List ℝ).length : ℝ),
         Real.sqrt ((succDiffsSq [700, 900]).sum / ((([700, 900] : List ℝ).length : ℝ) - 1)),
         Real.sqrt (((([700, 900] : List ℝ).map
             (fun x => (x - ([700, 900] : List ℝ).sum /
               (([700, 900] : List ℝ).length : ℝ)) ^ 2)).sum) /
           ((([700, 900] : List ℝ).length : ℝ) - 1)))) :=
  ⟨⟨by norm_num, claim_C1.1 [] (by norm_num)⟩,
   ⟨by norm_num, claim_C1.2.1 [700, 900] (by norm_num)⟩⟩

end HRDevice
